import Mathlib

/-!
Verification development for the MeasureIt sweep execution engine.

The repository sources available here contain the project documentation
(CLAUDE.md, the contributing guide, the error-handling testing guide with
recorded run results, the plotting roadmap, the sphinx documentation) and
example notebooks with recorded outputs, but not the Python implementation
files themselves (src/measureit/sweep/base_sweep.py, tools/util.py,
tools/sweep_queue.py, ...).  The engine is therefore embedded here as a
shallow model built from the specification, with behavior pinned to the
concrete outputs recorded in the repository wherever those exist (the
error-handling testing guide records exact error messages, state outcomes
and the ramp-convergence check; the export notebook records the exact JSON
metadata produced by export_json).  Machine reals are modelled as exact
rationals.
-/

/-- Modelled from the spec: the SweepState enumeration
READY, RAMPING_TO_START, RUNNING, PAUSED, STOPPING, DONE, ERROR, KILLED
(the implementation module src/measureit/sweep/progress.py is absent from
the source tree; only its importers appear in the testing guide). -/
inductive SweepState
  | READY
  | RAMPING_TO_START
  | RUNNING
  | PAUSED
  | STOPPING
  | DONE
  | ERROR
  | KILLED
deriving DecidableEq

/-- Modelled from the spec: the per-sweep ProgressState triple
(state, error_message, error_count) that the Runner and supervisor
callbacks mutate. -/
structure ProgressState where
  state : SweepState
  error_message : Option String
  error_count : Nat
deriving DecidableEq

/-- Progress record of a freshly constructed sweep: READY, no error. -/
def initialProgress : ProgressState :=
  { state := SweepState.READY, error_message := none, error_count := 0 }

/-- Modelled from the spec: mark_error is idempotent with respect to the
message (only the first error message is retained) and monotonic with
respect to the count (every call bumps error_count); it puts the sweep in
ERROR. -/
def mark_error (ps : ProgressState) (msg : String) : ProgressState :=
  { state := SweepState.ERROR
    error_message :=
      match ps.error_message with
      | some m => some m
      | none => some msg
    error_count := ps.error_count + 1 }

/-- Modelled from the spec: clear_error resets the triple to
(state=READY, error_message=None, error_count=0). -/
def clear_error (_ps : ProgressState) : ProgressState :=
  { state := SweepState.READY, error_message := none, error_count := 0 }

/-- Modelled from the spec: the error taxonomy entry ConfigError, raised
for invalid construction arguments. -/
inductive ConfigError
  | interDelayTooSmall (v : ℚ)
  | outerDelayTooSmall (v : ℚ)
deriving DecidableEq

/-- Timing configuration of a successfully constructed sweep. -/
structure SweepConfig where
  inter_delay : ℚ
  outer_delay : ℚ
deriving DecidableEq

/-- Result of running a sweep constructor. -/
inductive ConstructResult
  | ok (c : SweepConfig)
  | error (e : ConfigError)
deriving DecidableEq

/-- Modelled from the spec: validation on construction of the timing
minima, inter_delay at least 0.01 s and outer_delay at least 0.1 s;
violations fail construction with ConfigError and no sweep is produced. -/
def construct_sweep (inter_delay outer_delay : ℚ) : ConstructResult :=
  if inter_delay < 1/100 then
    ConstructResult.error (ConfigError.interDelayTooSmall inter_delay)
  else if outer_delay < 1/10 then
    ConstructResult.error (ConfigError.outerDelayTooSmall outer_delay)
  else
    ConstructResult.ok { inter_delay := inter_delay, outer_delay := outer_delay }

/-- C8: construction with inter_delay below 0.01 s or outer_delay below
0.1 s fails with a ConfigError, and no configured sweep is produced (no
state change); in particular inter_delay = 0.009 fails. -/
theorem C8_timing_minima (i o : ℚ) (h : i < 1/100 ∨ o < 1/10) :
    (∃ e, construct_sweep i o = ConstructResult.error e) ∧
    (∀ c, construct_sweep i o ≠ ConstructResult.ok c) := by
  unfold construct_sweep
  rcases h with h | h
  · rw [if_pos h]
    exact ⟨⟨_, rfl⟩, fun c hc => by cases hc⟩
  · by_cases hi : i < 1/100
    · rw [if_pos hi]
      exact ⟨⟨_, rfl⟩, fun c hc => by cases hc⟩
    · rw [if_neg hi, if_pos h]
      exact ⟨⟨_, rfl⟩, fun c hc => by cases hc⟩

/-- C8 witness: inter_delay = 0.009 (with a legal outer_delay) is rejected
at construction. -/
theorem C8_timing_minima_witness :
    ((9:ℚ)/1000 < 1/100 ∨ (1:ℚ)/2 < 1/10) ∧
    (∃ e, construct_sweep (9/1000) (1/2) = ConstructResult.error e) ∧
    (∀ c, construct_sweep (9/1000) (1/2) ≠ ConstructResult.ok c) :=
  ⟨Or.inl (by norm_num), C8_timing_minima (9/1000) (1/2) (Or.inl (by norm_num))⟩

/-- Decides whether the first character list is a starting segment of the
second; helper for the substring checks on recorded error messages. -/
def charsStartWith : List Char → List Char → Bool
  | [], _ => true
  | _ :: _, [] => false
  | a :: as, b :: bs => a == b && charsStartWith as bs

/-- Decides whether the first character list occurs contiguously inside
the second. -/
def charsHaveSub : List Char → List Char → Bool
  | pat, [] => pat.isEmpty
  | pat, c :: rest => charsStartWith pat (c :: rest) || charsHaveSub pat rest

/-- Decides whether the string pat occurs as a contiguous substring of s. -/
def strContainsSub (s pat : String) : Bool :=
  charsHaveSub pat.toList s.toList

theorem charsStartWith_append (pat t u : List Char)
    (h : charsStartWith pat t = true) : charsStartWith pat (t ++ u) = true := by
  induction pat generalizing t with
  | nil => simp [charsStartWith]
  | cons a as ih =>
    cases t with
    | nil => simp [charsStartWith] at h
    | cons b bs =>
      simp only [charsStartWith, Bool.and_eq_true] at h
      simp only [List.cons_append, charsStartWith, Bool.and_eq_true]
      exact ⟨h.1, ih bs (h.2)⟩

theorem charsHaveSub_append (pat t u : List Char)
    (h : charsHaveSub pat t = true) : charsHaveSub pat (t ++ u) = true := by
  induction t with
  | nil =>
    simp only [charsHaveSub, List.isEmpty_iff] at h
    subst h
    cases u with
    | nil => simp [charsHaveSub]
    | cons c cs => simp [charsHaveSub, charsStartWith]
  | cons c cs ih =>
    simp only [charsHaveSub, Bool.or_eq_true] at h
    rcases h with h | h
    · simp only [List.cons_append, charsHaveSub, Bool.or_eq_true]
      exact Or.inl (charsStartWith_append pat (c :: cs) u h)
    · simp only [List.cons_append, charsHaveSub, Bool.or_eq_true]
      exact Or.inr (ih h)

theorem strContainsSub_append (s t pat : String)
    (h : strContainsSub s pat = true) : strContainsSub (s ++ t) pat = true := by
  unfold strContainsSub at h ⊢
  have hdata : (s ++ t).toList = s.toList ++ t.toList := rfl
  rw [hdata]
  exact charsHaveSub_append pat.toList s.toList t.toList h

/-- Abstract handle naming a sweep object held by a queue. -/
structure SweepHandle where
  sid : Nat
deriving DecidableEq

/-- Modelled from the spec: a DatabaseEntry names the persistence target
(database file path, experiment label, sample label) attached to a queued
sweep. -/
structure DatabaseEntry where
  db_path : String
  exp_name : String
  sample_name : String
deriving DecidableEq

/-- Modelled from the spec and the quick start notebook: an argument given
to SweepQueue.append or to the overloaded += operator is either a sweep
alone or a (database entry, sweep) pair. -/
inductive EnqueueArg
  | sweepOnly (s : SweepHandle)
  | withDb (d : DatabaseEntry) (s : SweepHandle)
deriving DecidableEq

/-- Modelled from the spec: the SweepQueue holds an ordered sequence of
entries, each a sweep together with an optional persistence context. -/
structure SweepQueueFifo where
  entries : List (Option DatabaseEntry × SweepHandle)
deriving DecidableEq

/-- Modelled from the spec: SweepQueue.append pushes the entry, with its
optional database context, at the back of the queue. -/
def sweepQueueAppend (q : SweepQueueFifo) (e : EnqueueArg) : SweepQueueFifo :=
  match e with
  | EnqueueArg.sweepOnly s => { entries := q.entries ++ [(none, s)] }
  | EnqueueArg.withDb d s => { entries := q.entries ++ [(some d, s)] }

/-- Modelled from the spec and the quick start notebook: the overloaded
+= operator of SweepQueue, documented there as doing the same thing as the
append function, accepts a sweep or a (database entry, sweep) pair and
enqueues it at the back. -/
def sweepQueueIadd (q : SweepQueueFifo) (e : EnqueueArg) : SweepQueueFifo :=
  match e with
  | EnqueueArg.sweepOnly s => { entries := q.entries ++ [(none, s)] }
  | EnqueueArg.withDb d s => { entries := q.entries ++ [(some d, s)] }

/-- C10: for every SweepQueue q and every entry e (a sweep or a
(database entry, sweep) pair), q += e leaves the queue in exactly the same
state as q.append(e); the two enqueueing operations are interchangeable. -/
theorem C10_iadd_eq_append (q : SweepQueueFifo) (e : EnqueueArg) :
    sweepQueueIadd q e = sweepQueueAppend q e := by
  cases e <;> rfl

/-- JSON values as produced by the metadata export. -/
inductive Json
  | str (s : String)
  | num (q : ℚ)
  | jbool (b : Bool)
  | null
  | obj (fields : List (String × Json))
  | arr (elems : List Json)

/-- Classifier: the JSON value is a string. -/
def Json.isString : Json → Bool
  | Json.str _ => true
  | _ => false

/-- Classifier: the JSON value is an object. -/
def Json.isObj : Json → Bool
  | Json.obj _ => true
  | _ => false

/-- Classifier: the JSON value is an object or null. -/
def Json.isObjOrNull : Json → Bool
  | Json.obj _ => true
  | Json.null => true
  | _ => false

/-- Looks up a top-level field of an exported record, defaulting to null. -/
def jsonField (fields : List (String × Json)) (k : String) : Json :=
  match fields with
  | [] => Json.null
  | p :: rest => if p.1 = k then p.2 else jsonField rest k

/-- Modelled from the metadata reference of the plotting roadmap: the
per-kind controlled-parameter payload of the exported record.  Sweep0D
exports set_param null; Sweep1D exports a set_param object (instrument
info plus start, stop, step); Sweep2D exports the two objects inner_sweep
and outer_sweep (each with instrument info, start/stop/step and a
param_key); SimulSweep exports a set_params object keyed by parameter
name. -/
inductive SweepKindSpec
  | sweep0d
  | sweep1d (set_param : List (String × Json))
  | sweep2d (inner_fields outer_fields : List (String × Json))
  | simulSweep (set_params : List (String × Json))

/-- Data that parametrizes the metadata record of a sweep: its class tag,
its module, its attribute object, its per-kind controlled-parameter
payload and its followed-parameter object. -/
structure SweepMeta where
  class_name : String
  module_name : String
  attributes : List (String × Json)
  kind_spec : SweepKindSpec
  follow_params : List (String × Json)

/-- The per-kind top-level keys that carry the controlled-parameter
payload of the exported record. -/
def kindKeys : SweepKindSpec → List String
  | SweepKindSpec.sweep0d => ["set_param"]
  | SweepKindSpec.sweep1d _ => ["set_param"]
  | SweepKindSpec.sweep2d _ _ => ["inner_sweep", "outer_sweep"]
  | SweepKindSpec.simulSweep _ => ["set_params"]

/-- The per-kind top-level fields of the exported record. -/
def kindFields : SweepKindSpec → List (String × Json)
  | SweepKindSpec.sweep0d => [("set_param", Json.null)]
  | SweepKindSpec.sweep1d sp => [("set_param", Json.obj sp)]
  | SweepKindSpec.sweep2d innerF outerF =>
      [("inner_sweep", Json.obj innerF), ("outer_sweep", Json.obj outerF)]
  | SweepKindSpec.simulSweep sps => [("set_params", Json.obj sps)]

/-- Modelled from BaseSweep.export_json as documented in the metadata
reference of the plotting roadmap and recorded in the export notebook
(the implementation file src/measureit/sweep/base_sweep.py is absent from
the source tree): the record carries the common base fields, the class
tag, the module and the attribute object, then the per-kind
controlled-parameter fields, then the follow-parameter object.  The
roadmap spells the class tag class; the older notebook run spelled it
type; neither source uses kind. -/
def export_json (m : SweepMeta) : List (String × Json) :=
  [ ("class", Json.str m.class_name)
  , ("module", Json.str m.module_name)
  , ("attributes", Json.obj m.attributes) ]
  ++ kindFields m.kind_spec
  ++ [ ("follow_params", Json.obj m.follow_params) ]

/-- Instrument identity tuple as recorded in the export notebook. -/
def instrumentIdentity (nm md cls : String) : Json :=
  Json.arr [Json.str nm, Json.str md, Json.str cls]

/-- The Sweep0D metadata recorded in the export notebook: a 10 s time
sweep following the parameters dac2 and dac3 of the dummy instrument d1
(attribute and follow values from the recorded run; top-level layout per
the roadmap). -/
def sweep0d_recorded : SweepMeta :=
  { class_name := "Sweep0D"
    module_name := "src.sweep0d"
    attributes :=
      [ ("inter_delay", Json.num (1/100))
      , ("save_data", Json.jbool true)
      , ("plot_data", Json.jbool true)
      , ("plot_bin", Json.num 1)
      , ("max_time", Json.num 10) ]
    kind_spec := SweepKindSpec.sweep0d
    follow_params :=
      [ ("dac2", instrumentIdentity ("d1") ("qcodes.tests.instrument_mocks") ("DummyInstrument"))
      , ("dac3", instrumentIdentity ("d1") ("qcodes.tests.instrument_mocks") ("DummyInstrument")) ] }

/-- C9 counterexample: the record exported for the recorded Sweep0D run
carries the base and per-kind keys the repository documents (class tag,
module, attributes, set_param, follow_params; the recorded run spelled
the class tag type); none of the names kind, controlled or followed that
the claim requires occurs among its keys. -/
theorem C9_counterexample :
    ((export_json sweep0d_recorded).map Prod.fst =
      ["class", "module", "attributes", "set_param", "follow_params"]) ∧
    ("kind" ∉ (export_json sweep0d_recorded).map Prod.fst) ∧
    ("controlled" ∉ (export_json sweep0d_recorded).map Prod.fst) ∧
    ("followed" ∉ (export_json sweep0d_recorded).map Prod.fst) := by
  refine ⟨rfl, ?_, ?_, ?_⟩ <;> decide

/-- C9 amended: for every sweep, the exported metadata record is a JSON
object whose top-level keys are the base keys class (string), module
(string) and attributes (object), then the per-kind controlled-parameter
keys the roadmap documents (set_param, null for Sweep0D and an object for
Sweep1D; inner_sweep and outer_sweep objects for Sweep2D; a set_params
object for SimulSweep), then follow_params (object); the names kind,
controlled and followed never occur. -/
theorem C9_export_schema (m : SweepMeta) :
    ((export_json m).map Prod.fst =
      ["class", "module", "attributes"] ++ kindKeys m.kind_spec ++ ["follow_params"]) ∧
    Json.isString (jsonField (export_json m) ("class")) = true ∧
    Json.isString (jsonField (export_json m) ("module")) = true ∧
    Json.isObj (jsonField (export_json m) ("attributes")) = true ∧
    Json.isObj (jsonField (export_json m) ("follow_params")) = true ∧
    ("kind" ∉ (export_json m).map Prod.fst) ∧
    ("controlled" ∉ (export_json m).map Prod.fst) ∧
    ("followed" ∉ (export_json m).map Prod.fst) ∧
    (match m.kind_spec with
     | SweepKindSpec.sweep0d => jsonField (export_json m) ("set_param") = Json.null
     | SweepKindSpec.sweep1d _ =>
         Json.isObj (jsonField (export_json m) ("set_param")) = true
     | SweepKindSpec.sweep2d _ _ =>
         Json.isObj (jsonField (export_json m) ("inner_sweep")) = true ∧
         Json.isObj (jsonField (export_json m) ("outer_sweep")) = true
     | SweepKindSpec.simulSweep _ =>
         Json.isObj (jsonField (export_json m) ("set_params")) = true) := by
  obtain ⟨cls, md, attrs, ks, fps⟩ := m
  cases ks with
  | sweep0d =>
    refine ⟨rfl, rfl, rfl, rfl, rfl, ?_, ?_, ?_, rfl⟩
    · show ("kind" : String) ∉
        ["class", "module", "attributes", "set_param", "follow_params"]
      decide
    · show ("controlled" : String) ∉
        ["class", "module", "attributes", "set_param", "follow_params"]
      decide
    · show ("followed" : String) ∉
        ["class", "module", "attributes", "set_param", "follow_params"]
      decide
  | sweep1d sp =>
    refine ⟨rfl, rfl, rfl, rfl, rfl, ?_, ?_, ?_, rfl⟩
    · show ("kind" : String) ∉
        ["class", "module", "attributes", "set_param", "follow_params"]
      decide
    · show ("controlled" : String) ∉
        ["class", "module", "attributes", "set_param", "follow_params"]
      decide
    · show ("followed" : String) ∉
        ["class", "module", "attributes", "set_param", "follow_params"]
      decide
  | sweep2d innerF outerF =>
    refine ⟨rfl, rfl, rfl, rfl, rfl, ?_, ?_, ?_, rfl, rfl⟩
    · show ("kind" : String) ∉
        ["class", "module", "attributes", "inner_sweep", "outer_sweep", "follow_params"]
      decide
    · show ("controlled" : String) ∉
        ["class", "module", "attributes", "inner_sweep", "outer_sweep", "follow_params"]
      decide
    · show ("followed" : String) ∉
        ["class", "module", "attributes", "inner_sweep", "outer_sweep", "follow_params"]
      decide
  | simulSweep sps =>
    refine ⟨rfl, rfl, rfl, rfl, rfl, ?_, ?_, ?_, rfl⟩
    · show ("kind" : String) ∉
        ["class", "module", "attributes", "set_params", "follow_params"]
      decide
    · show ("controlled" : String) ∉
        ["class", "module", "attributes", "set_params", "follow_params"]
      decide
    · show ("followed" : String) ∉
        ["class", "module", "attributes", "set_params", "follow_params"]
      decide

/-- Modelled from the spec: the error taxonomy entry ParameterError with
its Get and Set kinds. -/
inductive ParamError
  | getFailure (param : String)
  | setFailure (param : String) (value : ℚ)
deriving DecidableEq

/-- Result of a guarded parameter read. -/
inductive GetResult
  | ok (v : ℚ)
  | err (e : ParamError)
deriving DecidableEq

/-- Trace of one safe_get call: how many underlying get invocations were
made, how many seconds were spent waiting between attempts, and the
outcome. -/
structure SafeGetTrace where
  attempts : Nat
  waited : ℚ
  result : GetResult
deriving DecidableEq

/-- Modelled from the spec: safe_get invokes the underlying get; on
failure it waits 1 s and retries once; if the retry also fails it fails
with a Get-kind ParameterError (the implementation file
src/measureit/tools/util.py is absent from the source tree; the retry
behavior is also recorded in the error-handling testing guide).  The
underlying parameter is modelled as a function from attempt index to an
optional value, none meaning the get raised. -/
def safe_get (pname : String) (g : Nat → Option ℚ) : SafeGetTrace :=
  match g 0 with
  | some v => { attempts := 1, waited := 0, result := GetResult.ok v }
  | none =>
    match g 1 with
    | some v => { attempts := 2, waited := 1, result := GetResult.ok v }
    | none =>
      { attempts := 2, waited := 1
        result := GetResult.err (ParamError.getFailure pname) }

/-- Modelled from the spec and the testing guide: when a point acquisition
hits a safe_get failure the Runner posts the recorded message and
transitions the sweep to ERROR via mark_error. -/
def runnerAcquire (ps : ProgressState) (pname : String) (g : Nat → Option ℚ) :
    ProgressState :=
  match (safe_get pname g).result with
  | GetResult.ok _ => ps
  | GetResult.err _ =>
      mark_error ps ("Parameter operation failed: Could not get " ++ pname ++ ".")

/-- C4: when a parameter get raises, safe_get waits 1 second and retries
exactly once; when the retry also fails it fails with a Get-kind
ParameterError after exactly two underlying attempts (never more than one
retry, never a silent success), and a Runner hitting this failure during a
point transitions the sweep to ERROR. -/
theorem C4_safe_get_retry (pname : String) (g : Nat → Option ℚ)
    (ps : ProgressState) (h0 : g 0 = none) (h1 : g 1 = none) :
    safe_get pname g =
      { attempts := 2, waited := 1
        result := GetResult.err (ParamError.getFailure pname) } ∧
    (∀ v, (safe_get pname g).result ≠ GetResult.ok v) ∧
    (∀ g2 : Nat → Option ℚ, (safe_get pname g2).attempts ≤ 2) ∧
    (runnerAcquire ps pname g).state = SweepState.ERROR := by
  refine ⟨?_, ?_, ?_, ?_⟩
  · simp [safe_get, h0, h1]
  · intro v
    simp [safe_get, h0, h1]
  · intro g2
    unfold safe_get
    cases g2 0 <;> simp
    cases g2 1 <;> simp
  · simp [runnerAcquire, safe_get, h0, h1, mark_error]

/-- C4 witness: a parameter whose get always raises produces exactly the
two-attempt Get failure trace and drives the Runner to ERROR. -/
theorem C4_safe_get_retry_witness :
    safe_get ("parabola") (fun _ => none) =
      { attempts := 2, waited := 1
        result := GetResult.err (ParamError.getFailure ("parabola")) } ∧
    (runnerAcquire initialProgress ("parabola") (fun _ => none)).state =
      SweepState.ERROR := by
  have h := C4_safe_get_retry ("parabola") (fun _ => none) initialProgress rfl rfl
  exact ⟨h.1, h.2.2.2⟩

/-- Modelled from the spec: the control surface of a sweep; each entry is
one supervisor invocation applied to the progress record. -/
inductive SweepOp
  | markErrorOp (msg : String)
  | clearErrorOp
  | startOp
  | stopOp
  | killOp
  | pauseOp
  | resumeOp
deriving DecidableEq

/-- States from which no further run transition is possible without an
explicit reset. -/
def isTerminal (s : SweepState) : Bool :=
  s == SweepState.DONE || s == SweepState.ERROR || s == SweepState.KILLED

/-- Modelled from the spec state machine: start is legal only from READY;
stop drains a RUNNING sweep; kill moves any non-terminal sweep to KILLED;
pause and resume toggle RUNNING and PAUSED; ERROR and KILLED are terminal
until an explicit clear_error. -/
def applyOp (ps : ProgressState) (op : SweepOp) : ProgressState :=
  match op with
  | SweepOp.markErrorOp m => mark_error ps m
  | SweepOp.clearErrorOp => clear_error ps
  | SweepOp.startOp =>
      if ps.state = SweepState.READY then
        { ps with state := SweepState.RAMPING_TO_START }
      else ps
  | SweepOp.stopOp =>
      if ps.state = SweepState.RUNNING then
        { ps with state := SweepState.STOPPING }
      else ps
  | SweepOp.killOp =>
      if isTerminal ps.state then ps else { ps with state := SweepState.KILLED }
  | SweepOp.pauseOp =>
      if ps.state = SweepState.RUNNING then
        { ps with state := SweepState.PAUSED }
      else ps
  | SweepOp.resumeOp =>
      if ps.state = SweepState.PAUSED then
        { ps with state := SweepState.RUNNING }
      else ps

/-- Applies a sequence of supervisor invocations in order. -/
def applyOps (ps : ProgressState) (ops : List SweepOp) : ProgressState :=
  ops.foldl applyOp ps

/-- Applies mark_error once per message, in order. -/
def markErrors (ps : ProgressState) (ms : List String) : ProgressState :=
  ms.foldl mark_error ps

theorem markErrors_count (ms : List String) (ps : ProgressState) :
    (markErrors ps ms).error_count = ps.error_count + ms.length := by
  induction ms generalizing ps with
  | nil => simp [markErrors]
  | cons m rest ih =>
    have h := ih (mark_error ps m)
    simp only [markErrors, List.foldl_cons] at h ⊢
    rw [h]
    simp [mark_error]
    omega

theorem markErrors_message (ms : List String) (ps : ProgressState) (x : String)
    (h : ps.error_message = some x) :
    (markErrors ps ms).error_message = some x := by
  induction ms generalizing ps with
  | nil => simpa [markErrors] using h
  | cons m rest ih =>
    simp only [markErrors, List.foldl_cons]
    exact ih (mark_error ps m) (by simp [mark_error, h])

theorem markErrors_state (ms : List String) (ps : ProgressState)
    (h : ps.state = SweepState.ERROR) :
    (markErrors ps ms).state = SweepState.ERROR := by
  induction ms generalizing ps with
  | nil => simpa [markErrors] using h
  | cons m rest ih =>
    simp only [markErrors, List.foldl_cons]
    exact ih (mark_error ps m) (by simp [mark_error])

theorem applyOp_keeps_error (ps : ProgressState) (op : SweepOp)
    (hop : op ≠ SweepOp.clearErrorOp) (h : ps.state = SweepState.ERROR) :
    (applyOp ps op).state = SweepState.ERROR := by
  cases op with
  | markErrorOp m => simp [applyOp, mark_error]
  | clearErrorOp => exact absurd rfl hop
  | startOp => simp [applyOp, h]
  | stopOp => simp [applyOp, h]
  | killOp => simp [applyOp, isTerminal, h]
  | pauseOp => simp [applyOp, h]
  | resumeOp => simp [applyOp, h]

theorem applyOps_keeps_error (ops : List SweepOp) (ps : ProgressState)
    (hops : SweepOp.clearErrorOp ∉ ops) (h : ps.state = SweepState.ERROR) :
    (applyOps ps ops).state = SweepState.ERROR := by
  induction ops generalizing ps with
  | nil => simpa [applyOps] using h
  | cons op rest ih =>
    simp only [applyOps, List.foldl_cons]
    have hop : op ≠ SweepOp.clearErrorOp := fun he => hops (by simp [he])
    have hrest : SweepOp.clearErrorOp ∉ rest := fun hr => hops (by simp [hr])
    exact ih (applyOp ps op) hrest (applyOp_keeps_error ps op hop h)

/-- C5: starting from a sweep with no recorded error, any nonempty
sequence of mark_error calls retains only the first message while the
error count grows by exactly one per call (count after the first k calls
is k); the sweep then stays in ERROR under any sequence of supervisor
invocations that does not include clear_error, and clear_error resets the
triple to (state=READY, error_message=None, error_count=0). -/
theorem C5_mark_error_lifecycle (ps : ProgressState)
    (hmsg : ps.error_message = none) (hcount : ps.error_count = 0)
    (m : String) (ms : List String) (ops : List SweepOp)
    (hops : SweepOp.clearErrorOp ∉ ops) :
    (markErrors ps (m :: ms)).error_message = some m ∧
    (∀ k, k ≤ ms.length + 1 →
      (markErrors ps ((m :: ms).take k)).error_count = k) ∧
    (markErrors ps (m :: ms)).state = SweepState.ERROR ∧
    (applyOps (markErrors ps (m :: ms)) ops).state = SweepState.ERROR ∧
    clear_error (markErrors ps (m :: ms)) =
      { state := SweepState.READY, error_message := none, error_count := 0 } := by
  have hfirst : (mark_error ps m).error_message = some m := by
    simp [mark_error, hmsg]
  have hstate1 : (mark_error ps m).state = SweepState.ERROR := by
    simp [mark_error]
  have hmsgAll : (markErrors ps (m :: ms)).error_message = some m := by
    simp only [markErrors, List.foldl_cons]
    exact markErrors_message ms (mark_error ps m) m hfirst
  have hstAll : (markErrors ps (m :: ms)).state = SweepState.ERROR := by
    simp only [markErrors, List.foldl_cons]
    exact markErrors_state ms (mark_error ps m) hstate1
  refine ⟨hmsgAll, ?_, hstAll, ?_, ?_⟩
  · intro k hk
    have := markErrors_count ((m :: ms).take k) ps
    rw [this, hcount, List.length_take]
    simp only [List.length_cons]
    omega
  · exact applyOps_keeps_error ops (markErrors ps (m :: ms)) hops hstAll
  · rfl

/-- C5 witness: two mark_error calls on a fresh sweep keep the first
message and count to two, the error survives later start and stop
invocations, and clear_error resets the triple. -/
theorem C5_mark_error_lifecycle_witness :
    (markErrors initialProgress ["first failure", "second failure"]).error_message =
      some ("first failure") ∧
    (markErrors initialProgress ["first failure", "second failure"]).error_count = 2 ∧
    (applyOps (markErrors initialProgress ["first failure", "second failure"])
      [SweepOp.startOp, SweepOp.stopOp]).state = SweepState.ERROR ∧
    clear_error (markErrors initialProgress ["first failure", "second failure"]) =
      { state := SweepState.READY, error_message := none, error_count := 0 } := by
  have h := C5_mark_error_lifecycle initialProgress rfl rfl
    ("first failure") (["second failure"]) ([SweepOp.startOp, SweepOp.stopOp])
    (by decide)
  refine ⟨h.1, ?_, h.2.2.2.1, h.2.2.2.2⟩
  have h2 := h.2.1 2 (by decide)
  simpa using h2

/-- A queued sweep abstracted by its name and by the terminal state its
run reaches (fails = true means the run ends in ERROR). -/
structure QueueEntry where
  name : String
  fails : Bool
deriving DecidableEq

/-- Outcome of a full supervisor run of a SweepQueue: the final queue
state, the entries still in the queue when consumption ended, and the
names of the sweeps that were started, in order. -/
structure QueueRunOutcome where
  qstate : SweepState
  remaining : List QueueEntry
  started : List String
deriving DecidableEq

/-- Modelled from the spec: the queue supervisor loop pops the front
entry, starts it and awaits its terminal state; when a sweep enters ERROR
the queue itself transitions to ERROR, stops consumption and preserves the
remaining entries (behavior also recorded in the error-handling testing
guide, where the entry queued after the failing sweep is still present
afterwards). -/
def runQueue : List QueueEntry → QueueRunOutcome
  | [] => { qstate := SweepState.DONE, remaining := [], started := [] }
  | e :: rest =>
    if e.fails then
      { qstate := SweepState.ERROR, remaining := rest, started := [e.name] }
    else
      let r := runQueue rest
      { qstate := r.qstate, remaining := r.remaining, started := e.name :: r.started }

/-- C7: when some queued sweep enters ERROR, the queue transitions to
ERROR, consumption stops with no later entry started (the started list is
exactly the successful prefix plus the failing sweep), and every entry
after the failing one remains in the queue. -/
theorem C7_queue_error_stops (pre post : List QueueEntry) (bad : QueueEntry)
    (hpre : ∀ e ∈ pre, e.fails = false) (hbad : bad.fails = true) :
    runQueue (pre ++ bad :: post) =
      { qstate := SweepState.ERROR
        remaining := post
        started := pre.map (fun e => e.name) ++ [bad.name] } := by
  induction pre with
  | nil =>
    simp only [List.nil_append, runQueue, hbad, if_pos]
    rfl
  | cons e rest ih =>
    have he : e.fails = false := hpre e (by simp)
    have hrest : ∀ x ∈ rest, x.fails = false := fun x hx => hpre x (by simp [hx])
    simp only [List.cons_append, runQueue, he, Bool.false_eq_true, if_false,
      List.map_cons]
    rw [show rest.append (bad :: post) = rest ++ bad :: post from rfl, ih hrest]

/-- C7 witness: a queue holding a successful sweep, then a failing sweep,
then one more entry ends in ERROR having started only the first two, with
the trailing entry preserved in the queue. -/
theorem C7_queue_error_stops_witness :
    runQueue [⟨"s_ok", false⟩, ⟨"s_bad", true⟩, ⟨"s_after", false⟩] =
      { qstate := SweepState.ERROR
        remaining := [⟨"s_after", false⟩]
        started := ["s_ok", "s_bad"] } := by
  have h := C7_queue_error_stops [⟨"s_ok", false⟩] [⟨"s_after", false⟩]
    ⟨"s_bad", true⟩ (by decide) rfl
  simpa using h

/-- Modelled from the spec: the one-axis one-shot step loop.  The Runner
emits a point at the current setpoint and keeps advancing the setpoint by
the step while at least one full step separates it from the stop value;
the fuel argument only bounds the recursion and any sufficiently large
value yields the same list. -/
def oneShotLoop (b d : ℚ) : Nat → ℚ → List ℚ
  | 0, x => [x]
  | fuel + 1, x =>
    if |d| ≤ |b - x| then x :: oneShotLoop b d fuel (x + d) else [x]

/-- Modelled from the spec: the setpoints emitted by a one-axis one-shot
sweep from start a to stop b with step d. -/
def oneShotPoints (a b d : ℚ) : List ℚ :=
  oneShotLoop b d ((⌊|b - a| / |d|⌋).toNat + 1) a

/-- Modelled from the spec: a complete run of a one-axis one-shot sweep
produces its trajectory points and finishes in DONE. -/
def runOneShot (a b d : ℚ) : List ℚ × SweepState :=
  (oneShotPoints a b d, SweepState.DONE)

theorem oneShotLoop_spec (b d : ℚ) (hd : d ≠ 0) :
    ∀ (n fuel : ℕ) (x : ℚ), n ≤ fuel → 0 ≤ (b - x) / d → ⌊(b - x) / d⌋ = (n : ℤ) →
      oneShotLoop b d fuel x = (List.range (n + 1)).map (fun j : ℕ => x + (j : ℚ) * d) := by
  intro n
  induction n with
  | zero =>
    intro fuel x _ hr hfloor
    have habs : |b - x| = ((b - x) / d) * |d| := by
      have hbx : b - x = ((b - x) / d) * d := (div_mul_cancel₀ _ hd).symm
      calc |b - x| = |((b - x) / d) * d| := by rw [← hbx]
        _ = |(b - x) / d| * |d| := abs_mul _ _
        _ = ((b - x) / d) * |d| := by rw [abs_of_nonneg hr]
    have hr1 : (b - x) / d < 1 := by
      have := Int.lt_floor_add_one ((b - x) / d)
      rw [hfloor] at this
      simpa using this
    have hcond : ¬ (|d| ≤ |b - x|) := by
      rw [habs]
      have hdpos : (0:ℚ) < |d| := abs_pos.mpr hd
      have : ((b - x) / d) * |d| < 1 * |d| := by
        exact mul_lt_mul_of_pos_right hr1 hdpos
      rw [one_mul] at this
      exact not_le.mpr this
    cases fuel with
    | zero => simp [oneShotLoop, List.range_succ]
    | succ f => simp [oneShotLoop, hcond, List.range_succ]
  | succ n ih =>
    intro fuel x hfuel hr hfloor
    cases fuel with
    | zero => omega
    | succ f =>
      have hr1 : (1:ℚ) ≤ (b - x) / d := by
        have hle := Int.floor_le ((b - x) / d)
        rw [hfloor] at hle
        have : ((1:ℤ) : ℚ) ≤ ((n:ℤ) + 1 : ℤ) := by exact_mod_cast by omega
        calc (1:ℚ) = ((1:ℤ) : ℚ) := by norm_num
          _ ≤ (((n:ℤ) + 1 : ℤ) : ℚ) := by exact_mod_cast this
          _ ≤ (b - x) / d := by exact_mod_cast hle
      have habs : |b - x| = ((b - x) / d) * |d| := by
        have hbx : b - x = ((b - x) / d) * d := (div_mul_cancel₀ _ hd).symm
        calc |b - x| = |((b - x) / d) * d| := by rw [← hbx]
          _ = |(b - x) / d| * |d| := abs_mul _ _
          _ = ((b - x) / d) * |d| := by rw [abs_of_nonneg hr]
      have hcond : |d| ≤ |b - x| := by
        rw [habs]
        have hdpos : (0:ℚ) < |d| := abs_pos.mpr hd
        calc |d| = 1 * |d| := (one_mul _).symm
          _ ≤ ((b - x) / d) * |d| := mul_le_mul_of_nonneg_right hr1 (le_of_lt hdpos)
      have hnext : (b - (x + d)) / d = (b - x) / d - 1 := by
        field_simp
        ring
      have hrnext : 0 ≤ (b - (x + d)) / d := by
        rw [hnext]
        linarith
      have hfl : ⌊(b - (x + d)) / d⌋ = (n : ℤ) := by
        rw [hnext, Int.floor_sub_one, hfloor]
        omega
      have hrec := ih f (x + d) (by omega) hrnext hfl
      simp only [oneShotLoop, hcond, if_pos, hrec]
      conv_rhs => rw [List.range_succ_eq_map, List.map_cons, List.map_map]
      congr 1
      · norm_num
      · apply List.map_congr_left
        intro j _
        simp only [Function.comp_apply]
        push_cast
        ring

theorem absRatio_eq (a b d : ℚ) (hd : d ≠ 0) (hdir : 0 ≤ (b - a) / d) :
    |b - a| / |d| = (b - a) / d := by
  have hba : b - a = ((b - a) / d) * d := (div_mul_cancel₀ _ hd).symm
  have habs : |b - a| = ((b - a) / d) * |d| := by
    calc |b - a| = |((b - a) / d) * d| := by rw [← hba]
      _ = |(b - a) / d| * |d| := abs_mul _ _
      _ = ((b - a) / d) * |d| := by rw [abs_of_nonneg hdir]
  rw [habs]
  have hdpos : (0:ℚ) < |d| := abs_pos.mpr hd
  field_simp
  ring

/-- C2: a one-axis one-shot sweep over start a, stop b, step d (d nonzero,
direction consistent) that runs to completion emits exactly
floor(abs(b - a) / abs d) + 1 points, the i-th emitted setpoint is exactly
a + i * d (the model uses exact rationals, so the 1e-9 float allowance of
the claim is met exactly), the final point is b whenever the span is a
whole number of steps, and the final state is DONE. -/
theorem C2_one_shot_trajectory (a b d : ℚ) (hd : d ≠ 0) (hdir : 0 ≤ (b - a) / d) :
    (runOneShot a b d).1 =
      (List.range ((⌊|b - a| / |d|⌋).toNat + 1)).map (fun i : ℕ => a + (i : ℚ) * d) ∧
    (runOneShot a b d).1.length = (⌊|b - a| / |d|⌋).toNat + 1 ∧
    (runOneShot a b d).2 = SweepState.DONE ∧
    (∀ n : ℕ, b - a = (n : ℚ) * d → (runOneShot a b d).1.getLast? = some b) := by
  have hratio := absRatio_eq a b d hd hdir
  have hfl0 : (0:ℤ) ≤ ⌊(b - a) / d⌋ := Int.floor_nonneg.mpr hdir
  have hcast : (((⌊(b - a) / d⌋).toNat : ℤ)) = ⌊(b - a) / d⌋ := Int.toNat_of_nonneg hfl0
  have hmain : (runOneShot a b d).1 =
      (List.range ((⌊|b - a| / |d|⌋).toNat + 1)).map (fun i : ℕ => a + (i : ℚ) * d) := by
    show oneShotPoints a b d = _
    unfold oneShotPoints
    rw [hratio]
    exact oneShotLoop_spec b d hd ((⌊(b - a) / d⌋).toNat) ((⌊(b - a) / d⌋).toNat + 1) a
      (by omega) hdir (by rw [hcast])
  refine ⟨hmain, ?_, rfl, ?_⟩
  · rw [hmain]
    simp
  · intro n hn
    have hratn : (b - a) / d = (n : ℚ) := by
      rw [hn]
      field_simp
    have hfln : ⌊(b - a) / d⌋ = (n : ℤ) := by
      rw [hratn]
      exact Int.floor_natCast n
    rw [hmain, hratio, hfln]
    have htn : ((n : ℤ)).toNat = n := rfl
    rw [htn, List.range_succ, List.map_append]
    simp only [List.map_cons, List.map_nil]
    rw [List.getLast?_concat]
    rw [← hn]
    norm_num

/-- C2 witness: the scenario S1 sweep from 0 to 1 in steps of 0.1 emits
exactly 11 points, ends at setpoint 1 and finishes DONE. -/
theorem C2_one_shot_trajectory_witness :
    (runOneShot 0 1 (1/10)).1.length = 11 ∧
    (runOneShot 0 1 (1/10)).2 = SweepState.DONE ∧
    (runOneShot 0 1 (1/10)).1.getLast? = some 1 := by
  have h := C2_one_shot_trajectory 0 1 (1/10) (by norm_num) (by norm_num)
  refine ⟨?_, h.2.2.1, ?_⟩
  · have hfl : ⌊|(1:ℚ) - 0| / |(1:ℚ)/10|⌋ = (10:ℤ) := by
      have h1 : |(1:ℚ) - 0| = 1 := by norm_num
      have h2 : |(1:ℚ)/10| = 1/10 := by norm_num
      rw [h1, h2]
      norm_num
    rw [h.2.1, hfl]
    decide
  · exact h.2.2.2 10 (by norm_num)

/-- The set-failure message as recorded in the error-handling testing
guide, for a set of the named parameter; the numeric rendering of the
offending setpoint that follows the parameter name in the recorded log is
omitted from the model. -/
def setFailMsg (pname : String) (_v : ℚ) : String :=
  "Parameter operation failed: Couldn\x27t set " ++ pname ++ "."

/-- Modelled from the spec and the testing guide: the Runner walks the
trajectory; each point sets the controlled parameter and, on success,
emits and persists the point.  safe_set does not retry, so the first
failing set raises a Set-kind ParameterError; the Runner then posts the
recorded message through mark_error and exits, leaving the already-emitted
rows in place.  The second argument counts how many sets will still
succeed before the parameter starts raising. -/
def runPointsFS (pname : String) :
    List ℚ → Nat → List ℚ → ProgressState → List ℚ × ProgressState
  | [], _, acc, ps => (acc.reverse, { ps with state := SweepState.DONE })
  | v :: _, 0, acc, ps => (acc.reverse, mark_error ps (setFailMsg pname v))
  | v :: rest, k + 1, acc, ps => runPointsFS pname rest k (v :: acc) ps

/-- Modelled from the spec and the testing guide scenario: a one-axis
sweep whose controlled parameter raises on every set after the first
failAfter successful ones. -/
def runSweepFailingSet (a b d : ℚ) (pname : String) (failAfter : Nat) :
    List ℚ × ProgressState :=
  runPointsFS pname (oneShotPoints a b d) failAfter [] initialProgress

theorem runPointsFS_spec (pname : String) (pts : List ℚ) :
    ∀ (k : Nat) (hk : k < pts.length) (acc : List ℚ) (ps : ProgressState),
      runPointsFS pname pts k acc ps =
        (acc.reverse ++ pts.take k,
         mark_error ps (setFailMsg pname (pts.get ⟨k, hk⟩))) := by
  induction pts with
  | nil =>
    intro k hk
    simp at hk
  | cons v rest ih =>
    intro k hk acc ps
    cases k with
    | zero => simp [runPointsFS]
    | succ k =>
      have hk2 : k < rest.length := by
        simpa using hk
      rw [show runPointsFS pname (v :: rest) (k + 1) acc ps =
        runPointsFS pname rest k (v :: acc) ps from rfl]
      rw [ih k hk2 (v :: acc) ps]
      simp [List.reverse_cons, List.append_assoc, List.take_succ_cons]

/-- C3 counterexample: in the recorded scenario S2 (one-axis sweep from 0
to 5 in steps of 0.1 whose set raises after the 5th success) the sweep
does end in ERROR, but its error message does not contain the substring
of the claim: the recorded wording is a contraction, as in the testing
guide result log. -/
theorem oneShotPoints_S2_eval : oneShotPoints 0 5 (1/10) =
    (List.range 51).map (fun j : ℕ => (0:ℚ) + (j : ℚ) * (1/10)) := by
  have hfl : ⌊|(5:ℚ) - 0| / |(1:ℚ)/10|⌋ = (50:ℤ) := by
    have h1 : |(5:ℚ) - 0| = 5 := by norm_num
    have h2 : |(1:ℚ)/10| = 1/10 := by norm_num
    rw [h1, h2]
    norm_num
  have hfl2 : ⌊((5:ℚ) - 0) / ((1:ℚ)/10)⌋ = ((50:ℕ) : ℤ) := by
    have h3 : ((5:ℚ) - 0) / ((1:ℚ)/10) = ((50:ℕ) : ℚ) := by norm_num
    rw [h3, Int.floor_natCast]
  unfold oneShotPoints
  rw [hfl]
  exact oneShotLoop_spec 5 (1/10) (by norm_num) 50 51 0 (by omega) (by norm_num) hfl2

theorem C3_counterexample :
    (runSweepFailingSet 0 5 (1/10) ("x") 5).2.state = SweepState.ERROR ∧
    strContainsSub
      ((runSweepFailingSet 0 5 (1/10) ("x") 5).2.error_message.getD (""))
      ("Could not set") = false := by
  unfold runSweepFailingSet
  rw [oneShotPoints_S2_eval]
  decide

/-- C3 amended: for every one-axis one-shot sweep of at least six points
whose controlled parameter raises on every set after the 5th successful
one, the run ends in ERROR, exactly the five successfully set points were
emitted and remain persisted (at least 5, no rollback), the error message
contains the substring of the recorded wording (a contraction of the
claimed one), and error_count equals 1. -/
theorem C3_set_failure_run (a b d : ℚ) (pname : String)
    (hlen : 6 ≤ (oneShotPoints a b d).length) :
    (runSweepFailingSet a b d pname 5).1 = (oneShotPoints a b d).take 5 ∧
    5 ≤ (runSweepFailingSet a b d pname 5).1.length ∧
    (runSweepFailingSet a b d pname 5).2.state = SweepState.ERROR ∧
    (runSweepFailingSet a b d pname 5).2.error_count = 1 ∧
    (∃ msg, (runSweepFailingSet a b d pname 5).2.error_message = some msg ∧
      strContainsSub msg ("Couldn\x27t set") = true) := by
  have hk : 5 < (oneShotPoints a b d).length := by omega
  have hrun := runPointsFS_spec pname (oneShotPoints a b d) 5 hk [] initialProgress
  have h1 : (runSweepFailingSet a b d pname 5).1 = (oneShotPoints a b d).take 5 := by
    unfold runSweepFailingSet
    rw [hrun]
    simp
  refine ⟨h1, ?_, ?_, ?_, ?_⟩
  · rw [h1, List.length_take]
    omega
  · unfold runSweepFailingSet
    rw [hrun]
    rfl
  · unfold runSweepFailingSet
    rw [hrun]
    rfl
  · refine ⟨setFailMsg pname ((oneShotPoints a b d).get ⟨5, hk⟩), ?_, ?_⟩
    · unfold runSweepFailingSet
      rw [hrun]
      rfl
    · unfold setFailMsg
      have hbase : strContainsSub
          ("Parameter operation failed: Couldn\x27t set ") ("Couldn\x27t set") = true := by
        decide
      exact strContainsSub_append
        ("Parameter operation failed: Couldn\x27t set " ++ pname) (".")
        ("Couldn\x27t set")
        (strContainsSub_append ("Parameter operation failed: Couldn\x27t set ")
          pname ("Couldn\x27t set") hbase)

/-- C3 amended witness: the scenario S2 sweep (0 to 5 in steps of 0.1,
set failing after 5 successes) ends in ERROR with error_count 1 and with
five emitted points preserved. -/
theorem C3_set_failure_run_witness :
    (runSweepFailingSet 0 5 (1/10) ("x") 5).2.state = SweepState.ERROR ∧
    (runSweepFailingSet 0 5 (1/10) ("x") 5).2.error_count = 1 ∧
    5 ≤ (runSweepFailingSet 0 5 (1/10) ("x") 5).1.length := by
  have hlen : 6 ≤ (oneShotPoints 0 5 (1/10)).length := by
    rw [oneShotPoints_S2_eval]
    simp
  have h := C3_set_failure_run 0 5 (1/10) ("x") hlen
  exact ⟨h.2.2.1, h.2.2.2.1, h.2.1⟩

/-- Modelled from the ramp-convergence check recorded in the testing
guide (the implementation of done_ramping is absent from the source
tree): after the ramp completes, the check fails exactly when the
position error abs(actual - expected) - abs(step / 2) exceeds the
tolerance abs(step) * err. -/
def ramp_error_triggered (actual expected step err : ℚ) : Bool :=
  decide (|step| * err < |actual - expected| - |step / 2|)

/-- The ramp-convergence failure message; it names the tolerance
explicitly, as the spec and the testing guide describe. -/
def rampToleranceMsg (step err : ℚ) : String :=
  "Ramp did not converge: position error exceeded tolerance=" ++ toString (|step| * err)

/-- Modelled from the spec and the testing guide: done_ramping applies
the convergence check; on failure the sweep is marked ERROR with the
tolerance message and does not proceed, otherwise the sweep proceeds to
RUNNING. -/
def done_ramping (ps : ProgressState) (actual expected step err : ℚ) : ProgressState :=
  if ramp_error_triggered actual expected step err then
    mark_error ps (rampToleranceMsg step err)
  else { ps with state := SweepState.RUNNING }

/-- C6 counterexample: with step 0.1 and the default err 0.5, an actual
reading 0.07 away from the expected start exceeds the tolerance
max(abs(step)/2, err * abs(step)) = 0.05 claimed by the spec, yet
done_ramping does not mark ERROR: the sweep proceeds to RUNNING, because
the code only trips when the deviation less half a step exceeds
err * abs(step). -/
theorem C6_counterexample :
    |(7:ℚ)/100 - 0| > max (|(1:ℚ)/10| / 2) ((1/2) * |(1:ℚ)/10|) ∧
    (done_ramping initialProgress (7/100) 0 (1/10) (1/2)).state =
      SweepState.RUNNING := by
  constructor
  · rw [show |(7:ℚ)/100 - 0| = 7/100 from by norm_num,
      show |(1:ℚ)/10| = 1/10 from by norm_num]
    norm_num
  · have hcond : ramp_error_triggered (7/100) 0 (1/10) (1/2) = false := by
      unfold ramp_error_triggered
      rw [decide_eq_false_iff_not]
      rw [show |(7:ℚ)/100 - 0| = 7/100 from by norm_num,
        show |(1:ℚ)/10| = 1/10 from by norm_num,
        show |((1:ℚ)/10)/2| = 1/20 from by norm_num]
      norm_num
    unfold done_ramping
    rw [hcond]
    simp

/-- C6 amended: for every sweep whose ramp-to-start completes with the
position error abs(actual - expected) - abs(step)/2 greater than the
tolerance err * abs(step) (the threshold the code actually applies), the
sweep transitions to ERROR, does not proceed to RUNNING, and the stored
error message contains the word tolerance. -/
theorem C6_ramp_convergence (ps : ProgressState) (actual expected step err : ℚ)
    (hmsg : ps.error_message = none)
    (h : |step| * err < |actual - expected| - |step / 2|) :
    (done_ramping ps actual expected step err).state = SweepState.ERROR ∧
    (done_ramping ps actual expected step err).state ≠ SweepState.RUNNING ∧
    (done_ramping ps actual expected step err).error_message =
      some (rampToleranceMsg step err) ∧
    strContainsSub (rampToleranceMsg step err) ("tolerance") = true := by
  have hcond : ramp_error_triggered actual expected step err = true := by
    unfold ramp_error_triggered
    exact decide_eq_true h
  unfold done_ramping
  rw [hcond, if_pos rfl]
  refine ⟨rfl, by simp [mark_error], ?_, ?_⟩
  · simp [mark_error, hmsg]
  · unfold rampToleranceMsg
    have hbase : strContainsSub
        ("Ramp did not converge: position error exceeded tolerance=")
        ("tolerance") = true := by
      decide
    exact strContainsSub_append
      ("Ramp did not converge: position error exceeded tolerance=")
      (toString (|step| * err)) ("tolerance") hbase

/-- C6 amended witness: the testing-guide scenario (expected 0, actual
0.5, step 0.1, err 0.5) trips the check, marks ERROR and mentions the
tolerance. -/
theorem C6_ramp_convergence_witness :
    (done_ramping initialProgress (1/2) 0 (1/10) (1/2)).state = SweepState.ERROR ∧
    (done_ramping initialProgress (1/2) 0 (1/10) (1/2)).state ≠ SweepState.RUNNING ∧
    strContainsSub (rampToleranceMsg (1/10) (1/2)) ("tolerance") = true := by
  have harith : |(1:ℚ)/10| * (1/2) < |(1:ℚ)/2 - 0| - |((1:ℚ)/10) / 2| := by
    rw [show |(1:ℚ)/10| = 1/10 from by norm_num,
      show |(1:ℚ)/2 - 0| = 1/2 from by norm_num,
      show |((1:ℚ)/10)/2| = 1/20 from by norm_num]
    norm_num
  have h := C6_ramp_convergence initialProgress (1/2) 0 (1/10) (1/2) rfl harith
  exact ⟨h.1, h.2.1, h.2.2.2⟩

/-- Modelled from the spec: the identity of a sweep for the relatedness
check; it carries a numeric identity and the identities of its proper
ancestors in the parent chain (nearest first), which is a tree by
construction. -/
structure SweepNode where
  nid : Nat
  ancestors : List Nat
deriving DecidableEq

/-- Modelled from the spec: R is related to S iff R equals S, R is a
descendant of S, R is an ancestor of S, or R and S share an ancestor. -/
def relatedTo (r s : SweepNode) : Bool :=
  decide (r.nid = s.nid ∨ r.nid ∈ s.ancestors ∨ s.nid ∈ r.ancestors ∨
    ∃ a ∈ r.ancestors, a ∈ s.ancestors)

theorem relatedTo_refl (r : SweepNode) : relatedTo r r = true :=
  decide_eq_true (Or.inl rfl)

theorem relatedTo_comm (r s : SweepNode) : relatedTo r s = relatedTo s r := by
  unfold relatedTo
  rw [decide_eq_decide]
  constructor
  · intro h
    rcases h with h | h | h | ⟨a, ha, hb⟩
    · exact Or.inl h.symm
    · exact Or.inr (Or.inr (Or.inl h))
    · exact Or.inr (Or.inl h)
    · exact Or.inr (Or.inr (Or.inr ⟨a, hb, ha⟩))
  · intro h
    rcases h with h | h | h | ⟨a, ha, hb⟩
    · exact Or.inl h.symm
    · exact Or.inr (Or.inr (Or.inl h))
    · exact Or.inr (Or.inl h)
    · exact Or.inr (Or.inr (Or.inr ⟨a, hb, ha⟩))

/-- A sweep known to the engine: its identity and whether it is driven by
a queue (queue-driven sweeps bypass the registry check). -/
structure SweepInfo where
  node : SweepNode
  queued : Bool
deriving DecidableEq

/-- Global engine state: the sweeps of the process and the per-identity
sweep states, as an association list whose later entries are shadowed
(absent identities are READY). -/
structure World where
  sweeps : List SweepInfo
  st : List (Nat × SweepState)
deriving DecidableEq

/-- Looks up the state recorded for an identity, READY by default. -/
def lookupState : List (Nat × SweepState) → Nat → SweepState
  | [], _ => SweepState.READY
  | p :: rest, i => if p.1 = i then p.2 else lookupState rest i

/-- The current state of the sweep with the given identity. -/
def World.stateOf (w : World) (i : Nat) : SweepState := lookupState w.st i

/-- Modelled from the spec: the registry holds currently RUNNING or
RAMPING_TO_START sweeps. -/
def isActive (s : SweepState) : Bool :=
  s == SweepState.RUNNING || s == SweepState.RAMPING_TO_START

/-- Modelled from the spec: the Active-Sweep Registry, the process-wide
set of non-queued sweeps currently RUNNING or RAMPING_TO_START. -/
def registry (w : World) : List SweepInfo :=
  w.sweeps.filter (fun g => !g.queued && isActive (w.stateOf g.node.nid))

/-- Records a new state for the given identity. -/
def setState (w : World) (i : Nat) (s : SweepState) : World :=
  { sweeps := w.sweeps, st := (i, s) :: w.st }

/-- Modelled from the spec: the errors start can fail with. -/
inductive EngineError
  | concurrency (msg : String)
  | notReady
deriving DecidableEq

/-- Result of a start invocation. -/
inductive StartResult
  | ok (w : World)
  | error (e : EngineError)
deriving DecidableEq

/-- Modelled from the spec: start() fails with ConcurrencyError when any
member of the registry is not related to the starting sweep (queue-driven
sweeps bypass this check); start is legal only from READY; on success the
sweep transitions to RAMPING_TO_START.  An error outcome carries no new
world: the engine state and the starting sweep are unchanged. -/
def startSweep (w : World) (s : SweepInfo) : StartResult :=
  if s.queued then
    (if w.stateOf s.node.nid = SweepState.READY then
      StartResult.ok (setState w s.node.nid SweepState.RAMPING_TO_START)
     else StartResult.error EngineError.notReady)
  else if (registry w).any (fun r => !relatedTo r.node s.node) then
    StartResult.error (EngineError.concurrency ("Another sweep is active"))
  else if w.stateOf s.node.nid = SweepState.READY then
    StartResult.ok (setState w s.node.nid SweepState.RAMPING_TO_START)
  else StartResult.error EngineError.notReady

/-- Modelled from the spec: the transitions of the engine that touch the
registry: a successful start, a ramp that reaches its start value
(RAMPING_TO_START to RUNNING), and any transition of a sweep to a
non-active state (pause, stop drain, DONE, ERROR, KILLED), which removes
it from the registry. -/
inductive EngineStep : World → World → Prop
  | start (w : World) (s : SweepInfo) (w' : World) :
      s ∈ w.sweeps → startSweep w s = StartResult.ok w' → EngineStep w w'
  | rampDone (w : World) (s : SweepInfo) :
      s ∈ w.sweeps → w.stateOf s.node.nid = SweepState.RAMPING_TO_START →
      EngineStep w (setState w s.node.nid SweepState.RUNNING)
  | deactivate (w : World) (s : SweepInfo) (t : SweepState) :
      s ∈ w.sweeps → isActive t = false →
      EngineStep w (setState w s.node.nid t)

/-- Reachability along engine transitions. -/
inductive EngineReach : World → World → Prop
  | refl (w : World) : EngineReach w w
  | tail {w0 w1 w2 : World} : EngineReach w0 w1 → EngineStep w1 w2 → EngineReach w0 w2

/-- The registry never holds two mutually unrelated members. -/
def registryOK (w : World) : Prop :=
  ∀ r ∈ registry w, ∀ q ∈ registry w, relatedTo r.node q.node = true

/-- The sweeps of the world carry pairwise distinct identities. -/
def idsNodup (w : World) : Prop :=
  (w.sweeps.map (fun g => g.node.nid)).Nodup

theorem stateOf_setState (w : World) (i : Nat) (v : SweepState) (j : Nat) :
    (setState w i v).stateOf j = if i = j then v else w.stateOf j := rfl

theorem mem_registry_iff (w : World) (g : SweepInfo) :
    g ∈ registry w ↔
      g ∈ w.sweeps ∧ g.queued = false ∧ isActive (w.stateOf g.node.nid) = true := by
  simp [registry, List.mem_filter, Bool.and_eq_true, Bool.not_eq_true']

theorem nid_inj (w : World) (hid : idsNodup w) (g s : SweepInfo)
    (hg : g ∈ w.sweeps) (hs : s ∈ w.sweeps) (h : g.node.nid = s.node.nid) :
    g = s :=
  List.inj_on_of_nodup_map hid hg hs h

theorem startSweep_ok_elim (w : World) (s : SweepInfo) (w' : World)
    (h : startSweep w s = StartResult.ok w') :
    w' = setState w s.node.nid SweepState.RAMPING_TO_START ∧
    w.stateOf s.node.nid = SweepState.READY ∧
    (s.queued = false → ∀ r ∈ registry w, relatedTo r.node s.node = true) := by
  unfold startSweep at h
  split at h
  · rename_i hq
    split at h
    · rename_i hready
      cases h
      exact ⟨rfl, hready, fun hq2 => by rw [hq] at hq2; cases hq2⟩
    · cases h
  · rename_i hq
    split at h
    · cases h
    · rename_i hany
      split at h
      · rename_i hready
        cases h
        refine ⟨rfl, hready, fun _ r hr => ?_⟩
        rw [List.any_eq_true] at hany
        push_neg at hany
        have := hany r hr
        simpa using this
      · cases h

theorem step_sweeps_eq {w w' : World} (h : EngineStep w w') : w'.sweeps = w.sweeps := by
  cases h with
  | start s wy hmem hstart =>
    obtain ⟨rfl, -, -⟩ := startSweep_ok_elim _ s _ hstart
    rfl
  | rampDone s hmem hst => rfl
  | deactivate s t hmem ht => rfl

theorem mem_registry_setState (w : World) (i : Nat) (v : SweepState) (g : SweepInfo) :
    g ∈ registry (setState w i v) ↔
      g ∈ w.sweeps ∧ g.queued = false ∧
        isActive (if i = g.node.nid then v else w.stateOf g.node.nid) = true := by
  rw [mem_registry_iff, stateOf_setState]
  exact Iff.rfl

theorem step_preserves_registryOK {w w' : World} (hstep : EngineStep w w')
    (hid : idsNodup w) (hok : registryOK w) : registryOK w' := by
  cases hstep with
  | start s wy hmem hstart =>
    obtain ⟨rfl, hready, hrel⟩ := startSweep_ok_elim w s _ hstart
    by_cases hq : s.queued = true
    · intro r hr q hqq
      have hr2 := (mem_registry_setState w s.node.nid SweepState.RAMPING_TO_START r).mp hr
      have hq2 := (mem_registry_setState w s.node.nid SweepState.RAMPING_TO_START q).mp hqq
      have hold : ∀ g, g ∈ w.sweeps → g.queued = false →
          isActive (if s.node.nid = g.node.nid then SweepState.RAMPING_TO_START
            else w.stateOf g.node.nid) = true →
          g ∈ registry w := by
        intro g hgs hgq hga
        by_cases hni : s.node.nid = g.node.nid
        · have hgeq : g = s := nid_inj w hid g s hgs hmem hni.symm
          rw [hgeq, hq] at hgq
          cases hgq
        · exact (mem_registry_iff w g).mpr ⟨hgs, hgq, by rwa [if_neg hni] at hga⟩
      exact hok r (hold r hr2.1 hr2.2.1 hr2.2.2) q (hold q hq2.1 hq2.2.1 hq2.2.2)
    · have hqf : s.queued = false := by
        cases hcase : s.queued with
        | false => rfl
        | true => exact absurd hcase hq
      have hrelS := hrel hqf
      intro r hr q hqq
      have hr2 := (mem_registry_setState w s.node.nid SweepState.RAMPING_TO_START r).mp hr
      have hq2 := (mem_registry_setState w s.node.nid SweepState.RAMPING_TO_START q).mp hqq
      have classify : ∀ g, g ∈ w.sweeps → g.queued = false →
          isActive (if s.node.nid = g.node.nid then SweepState.RAMPING_TO_START
            else w.stateOf g.node.nid) = true →
          g = s ∨ g ∈ registry w := by
        intro g hgs hgq hga
        by_cases hni : s.node.nid = g.node.nid
        · exact Or.inl (nid_inj w hid g s hgs hmem hni.symm)
        · exact Or.inr ((mem_registry_iff w g).mpr ⟨hgs, hgq, by rwa [if_neg hni] at hga⟩)
      rcases classify r hr2.1 hr2.2.1 hr2.2.2 with hrS | hrold <;>
        rcases classify q hq2.1 hq2.2.1 hq2.2.2 with hqS | hqold
      · rw [hrS, hqS]
        exact relatedTo_refl s.node
      · rw [hrS, relatedTo_comm]
        exact hrelS q hqold
      · rw [hqS]
        exact hrelS r hrold
      · exact hok r hrold q hqold
  | rampDone s hmem hst =>
    intro r hr q hqq
    have key : ∀ g, g ∈ registry (setState w s.node.nid SweepState.RUNNING) →
        g ∈ registry w := by
      intro g hg
      obtain ⟨hgs2, hgq2, hga2⟩ := (mem_registry_setState w s.node.nid SweepState.RUNNING g).mp hg
      by_cases hni : s.node.nid = g.node.nid
      · refine (mem_registry_iff w g).mpr ⟨hgs2, hgq2, ?_⟩
        rw [← hni, hst]
        rfl
      · exact (mem_registry_iff w g).mpr ⟨hgs2, hgq2, by rwa [if_neg hni] at hga2⟩
    exact hok r (key r hr) q (key q hqq)
  | deactivate s t hmem ht =>
    intro r hr q hqq
    have key : ∀ g, g ∈ registry (setState w s.node.nid t) → g ∈ registry w := by
      intro g hg
      obtain ⟨hgs2, hgq2, hga2⟩ := (mem_registry_setState w s.node.nid t g).mp hg
      by_cases hni : s.node.nid = g.node.nid
      · have hta : isActive t = true := by rwa [if_pos hni] at hga2
        rw [ht] at hta
        cases hta
      · exact (mem_registry_iff w g).mpr ⟨hgs2, hgq2, by rwa [if_neg hni] at hga2⟩
    exact hok r (key r hr) q (key q hqq)

theorem reach_preserves {w0 w : World} (hreach : EngineReach w0 w)
    (hid : idsNodup w0) (h0 : registryOK w0) : registryOK w ∧ idsNodup w := by
  induction hreach with
  | refl => exact ⟨h0, hid⟩
  | tail hr hstep ih =>
    obtain ⟨hok1, hid1⟩ := ih
    refine ⟨step_preserves_registryOK hstep hid1 hok1, ?_⟩
    unfold idsNodup at hid1 ⊢
    rw [step_sweeps_eq hstep]
    exact hid1

/-- C1: in every execution from a well-formed initial state (distinct
sweep identities, registry without unrelated pairs), the Active-Sweep
Registry never holds two mutually unrelated sweeps; and whenever a
non-queued sweep S is RUNNING or RAMPING_TO_START and start() is invoked
on a non-queued sweep T unrelated to S, the call fails with
ConcurrencyError (message: Another sweep is active) and returns no new
world, so neither the engine state nor the caller changes. -/
theorem C1_registry_exclusivity (w0 w : World) (hid : idsNodup w0)
    (h0 : registryOK w0) (hreach : EngineReach w0 w) :
    registryOK w ∧
    ∀ S T : SweepInfo, S ∈ w.sweeps → S.queued = false →
      isActive (w.stateOf S.node.nid) = true →
      T.queued = false → relatedTo S.node T.node = false →
      startSweep w T =
        StartResult.error (EngineError.concurrency ("Another sweep is active")) ∧
      ∀ w2, startSweep w T ≠ StartResult.ok w2 := by
  refine ⟨(reach_preserves hreach hid h0).1, ?_⟩
  intro S T hS hSq hSa hTq hrel
  have hSreg : S ∈ registry w := (mem_registry_iff w S).mpr ⟨hS, hSq, hSa⟩
  have hany : (registry w).any (fun r => !relatedTo r.node T.node) = true := by
    rw [List.any_eq_true]
    exact ⟨S, hSreg, by rw [hrel]; rfl⟩
  have heq : startSweep w T =
      StartResult.error (EngineError.concurrency ("Another sweep is active")) := by
    unfold startSweep
    rw [if_neg (by simp [hTq]), if_pos hany]
  exact ⟨heq, fun w2 hco => by rw [heq] at hco; cases hco⟩

/-- A first unrelated sweep used in the registry witness. -/
def sweepA : SweepInfo := { node := { nid := 0, ancestors := [] }, queued := false }

/-- A second unrelated sweep used in the registry witness. -/
def sweepB : SweepInfo := { node := { nid := 1, ancestors := [] }, queued := false }

/-- Initial engine state of the registry witness: both sweeps READY. -/
def worldEx0 : World := { sweeps := [sweepA, sweepB], st := [] }

/-- Engine state after starting sweepA: it is RAMPING_TO_START. -/
def worldEx1 : World :=
  { sweeps := [sweepA, sweepB], st := [(0, SweepState.RAMPING_TO_START)] }

/-- C1 witness: after sweepA starts (and is RAMPING_TO_START), starting
the unrelated sweepB fails with ConcurrencyError. -/
theorem C1_registry_exclusivity_witness :
    startSweep worldEx1 sweepB =
      StartResult.error (EngineError.concurrency ("Another sweep is active")) ∧
    registryOK worldEx1 := by
  have hreach : EngineReach worldEx0 worldEx1 :=
    EngineReach.tail (EngineReach.refl worldEx0)
      (EngineStep.start worldEx0 sweepA worldEx1 (by decide) (by decide))
  have h := C1_registry_exclusivity worldEx0 worldEx1
    (by unfold idsNodup; decide) (by unfold registryOK; decide) hreach
  exact ⟨(h.2 sweepA sweepB (by decide) (by decide) (by decide) (by decide) (by decide)).1,
    h.1⟩
